import Mathlib

/- Verification development for the extraction orchestration and
   password-retry logic of PdfXtract (src/PdfXtract.py).

   The Python source is shallowly embedded below: pure per-page loops become
   list computations, the mutable session state threaded through the OCR
   initializer becomes explicit state passing, file writes become an explicit
   list of (name, content) records, and the after(0, ...) callbacks the
   worker thread posts to the Tk main loop become an explicit FIFO list of
   callback values folded over a small UI state. -/

namespace PdfXtract

/-! ## Decimal rendering, modelling the Python str(int) used in f-strings -/

/-- Character for one decimal digit d (0 to 9), as produced by str(int). -/
def digitChar (d : Nat) : Char := Char.ofNat (48 + d)

/-- Fuel-based decimal printer core, most significant digit first. The fuel
    argument only forces structural termination; any fuel above n is exact. -/
def natStrCore : Nat → Nat → List Char
  | 0, _ => []
  | fuel + 1, n =>
      if n < 10 then [digitChar n]
      else natStrCore fuel (n / 10) ++ [digitChar (n % 10)]

/-- Decimal rendering of a natural number, modelling Python str(n) as it is
    interpolated into the f-strings of PdfXtract.py. -/
def natStr (n : Nat) : String := ⟨natStrCore (n + 1) n⟩

/-- Value read back from a digit-character list, used to invert natStr. -/
def listVal (cs : List Char) : Nat :=
  cs.foldl (fun acc c => 10 * acc + (c.toNat - 48)) 0

/-- A character is a decimal digit (code 48 to 57). -/
def isDig (c : Char) : Prop := 48 ≤ c.toNat ∧ c.toNat ≤ 57

instance (c : Char) : Decidable (isDig c) := by
  unfold isDig
  infer_instance

theorem digitChar_toNat {d : Nat} (h : d < 10) : (digitChar d).toNat = 48 + d := by
  interval_cases d <;> decide

theorem listVal_append_one (xs : List Char) (c : Char) :
    listVal (xs ++ [c]) = 10 * listVal xs + (c.toNat - 48) := by
  simp [listVal, List.foldl_append]

theorem natStrCore_val : ∀ fuel n, n < fuel → listVal (natStrCore fuel n) = n := by
  intro fuel
  induction fuel with
  | zero => omega
  | succ f ih =>
    intro n hn
    by_cases h10 : n < 10
    · simp [natStrCore, h10, listVal, digitChar_toNat h10]
    · have hdiv : n / 10 < f := by omega
      simp only [natStrCore, if_neg h10, listVal_append_one, ih _ hdiv,
        digitChar_toNat (Nat.mod_lt n (by omega))]
      omega

theorem natStr_inj {a b : Nat} (h : natStr a = natStr b) : a = b := by
  have hd : natStrCore (a + 1) a = natStrCore (b + 1) b := by
    have := congrArg String.data h
    simpa [natStr] using this
  have hv : listVal (natStrCore (a + 1) a) = listVal (natStrCore (b + 1) b) := by
    rw [hd]
  rwa [natStrCore_val _ _ (by omega), natStrCore_val _ _ (by omega)] at hv

theorem natStrCore_digits : ∀ fuel n, ∀ c ∈ natStrCore fuel n, isDig c := by
  intro fuel
  induction fuel with
  | zero => intro n c hc; simp [natStrCore] at hc
  | succ f ih =>
    intro n c hc
    by_cases h10 : n < 10
    · simp [natStrCore, h10] at hc
      subst hc
      refine ⟨?_, ?_⟩ <;> rw [digitChar_toNat h10] <;> omega
    · simp [natStrCore, h10] at hc
      rcases hc with hc | hc
      · exact ih _ c hc
      · subst hc
        have hm : n % 10 < 10 := Nat.mod_lt n (by omega)
        refine ⟨?_, ?_⟩ <;> rw [digitChar_toNat hm] <;> omega

theorem natStr_digits (n : Nat) : ∀ c ∈ (natStr n).data, isDig c :=
  natStrCore_digits (n + 1) n

/-! ## Data model

    The document as the extractors observe it through PyMuPDF: a list of
    pages, each carrying its embedded images (doc.extract_image output:
    raw bytes and original format extension), its get_text() result, its
    get_text("html") result, and the OCR text recognized from its 300 DPI
    raster. The orchestrator additionally sees the encryption flags and the
    authenticate oracle. -/

/-- One embedded image: extension and raw bytes (lines 601 to 605). -/
structure EmbImage where
  ext : String
  data : List Nat
deriving DecidableEq

/-- One page, as observed through the PyMuPDF calls the extractors make. -/
structure Page where
  images : List EmbImage
  text : String
  html : String
  ocrText : String
deriving DecidableEq

/-- An open document: encryption flags (doc.is_encrypted, doc.needs_pass),
    the authentication oracle (truthiness of doc.authenticate), and pages. -/
structure PdfDoc where
  isEncrypted : Bool
  needsPass : Bool
  auth : String → Bool
  pages : List Page

/-- Contents of one output file: image bytes or UTF-8 text. -/
inductive FileData where
  | bytes (bs : List Nat)
  | text (s : String)
deriving DecidableEq

/-- One file written into the output folder. -/
structure FileWrite where
  name : String
  content : FileData
deriving DecidableEq

/-! ## Progress reporting shared by the three non-OCR extractors

    Lines 590 to 593, 642 to 645 and 756 to 759 are identical: on every page
    whose index is a multiple of 5, and on the last page, the loop posts
    progress (page_num + 1) / len(doc) to the progress bar. The Python value
    is a float; we model it as an exact rational, which agrees on ordering
    and on the endpoint 1.0. -/

/-- Page indices at which the non-OCR loops update the progress bar. -/
def progressPages (n : Nat) : List Nat :=
  (List.range n).filter (fun p => p % 5 == 0 || p == n - 1)

/-- Fractional progress values posted, in order. -/
def progressSeq (n : Nat) : List ℚ :=
  (progressPages n).map (fun (p : Nat) => ((p : ℚ) + 1) / (n : ℚ))

/-! ## Per-page extractors -/

/-- Output filename for one embedded image; page and image index are passed
    already 1-indexed by the caller (f-string at line 607). -/
def imageFilename (p i : Nat) (ext : String) : String :=
  "page" ++ natStr p ++ "_img" ++ natStr i ++ "." ++ ext

/-- Files written by _do_extract_images (lines 589 to 612): for page index
    page_num and image index img_index (both 0-based loop variables), the
    file page(page_num+1)_img(img_index+1).(ext) holding the image bytes. -/
def imageWrites (pages : List Page) : List FileWrite :=
  pages.enum.flatMap (fun pp =>
    pp.2.images.enum.map (fun ii =>
      { name := imageFilename (pp.1 + 1) (ii.1 + 1) ii.2.ext
        content := FileData.bytes ii.2.data }))

/-- Result of one extractor body: the message it returns, the files it
    writes, and the progress fractions it posts, in order. -/
structure ExtractOut where
  msg : String
  writes : List FileWrite
  progress : List ℚ
deriving DecidableEq

/-- The _do_extract_images body (lines 581 to 614). image_count counts one
    per file written, so it equals the length of the write list. -/
def doExtractImages (doc : PdfDoc) : ExtractOut :=
  let ws := imageWrites doc.pages
  { msg :=
      if 0 < ws.length then
        "Extraction complete! Found and saved " ++ natStr ws.length ++ " images."
      else "Extraction finished, but no images were found in the PDF."
    writes := ws
    progress := progressSeq doc.pages.length }

/-- Section contributed to the text file by a page with non-empty text:
    page-number header plus body (line 650, 1-indexed page number). -/
def pageSection (n : Nat) (text : String) : String :=
  "--- Page " ++ natStr (n + 1) ++ " ---\n" ++ text ++ "\n\n"

/-- The full_text list built by _do_extract_text (lines 640 to 651): one
    section per page whose get_text() is truthy (non-empty), in page order. -/
def textSections (pages : List Page) : List String :=
  pages.enum.filterMap (fun pp =>
    if pp.2.text = "" then none else some (pageSection pp.1 pp.2.text))

/-- The _save_extracted_text body (lines 681 to 693). baseName stands for
    os.path.splitext(os.path.basename(self.pdf_path))[0]. The truthiness
    test "if full_text:" is rendered as the isEmpty test, branches swapped. -/
def saveExtractedText (baseName : String) (fullText : List String) :
    String × List FileWrite :=
  if fullText.isEmpty then
    ("Text extraction finished, but no text was found in the PDF.", [])
  else
    ("Text extraction complete! Saved to " ++ (baseName ++ "_extracted_text.txt") ++ ".",
     [{ name := baseName ++ "_extracted_text.txt"
        content := FileData.text (String.join fullText) }])

/-- The _do_extract_text body (lines 633 to 652). -/
def doExtractText (baseName : String) (doc : PdfDoc) : ExtractOut :=
  let st := saveExtractedText baseName (textSections doc.pages)
  { msg := st.1, writes := st.2, progress := progressSeq doc.pages.length }

/-- Opening line of the HTML shell (line 754). -/
def htmlShellOpen : String := "<html><head><title>Extracted Content</title></head><body>"

/-- Closing line of the HTML shell (line 765). -/
def htmlShellClose : String := "</body></html>"

/-- The html_parts list built by _do_extract_html (lines 754 to 765): shell
    opening, one page-delimiting comment plus rendered content per page,
    shell closing. -/
def htmlParts (pages : List Page) : List String :=
  htmlShellOpen ::
    (pages.enum.map (fun pp => "<!-- Page " ++ natStr (pp.1 + 1) ++ " -->\n" ++ pp.2.html)
      ++ [htmlShellClose])

/-- The _do_extract_html body (lines 747 to 774): joins the parts with
    newlines and always writes the single output file. -/
def doExtractHtml (baseName : String) (doc : PdfDoc) : ExtractOut :=
  { msg := "HTML extraction complete! Saved to " ++ (baseName ++ "_extracted_content.html") ++ "."
    writes := [{ name := baseName ++ "_extracted_content.html"
                 content := FileData.text (String.intercalate "\n" (htmlParts doc.pages)) }]
    progress := progressSeq doc.pages.length }

/-! ## OCR engine initialization and the OCR text path -/

/-- The _initialize_ocr body (lines 654 to 679). The session field
    self.ocr_reader is passed and returned explicitly (the easyocr.Reader
    instance is opaque, rendered as Unit). easyocrAvailable tells whether
    importing easyocr succeeds at this call; when the reader is None and
    importing raises ModuleNotFoundError, the function shows the Dependency
    Missing error box and returns False with the reader still None. -/
def initializeOcr (easyocrAvailable : Bool) (ocrReader : Option Unit) :
    Bool × Option Unit :=
  match ocrReader with
  | some r => (true, some r)
  | none => if easyocrAvailable then (true, some ()) else (false, none)

/-- True when a call to _initialize_ocr constructs a new easyocr.Reader
    (line 670 executes). -/
def ocrConstructs (easyocrAvailable : Bool) (ocrReader : Option Unit) : Bool :=
  ocrReader.isNone && easyocrAvailable

/-- Number of Reader constructions across a sequence of _initialize_ocr
    calls, one Bool per call recording module availability at that moment. -/
def ocrConstructions : Option Unit → List Bool → Nat
  | _, [] => 0
  | st, avail :: rest =>
      (if ocrConstructs avail st then 1 else 0) +
        ocrConstructions (initializeOcr avail st).2 rest

/-- Message of the RuntimeError raised at line 707. -/
def ocrInitFailureMsg : String :=
  "OCR initialization failed. Please install the \x27easyocr\x27 library."

/-- The full_text list built by _do_extract_text_ocr (lines 708 to 731): the
    per-page OCR text, kept when its strip() is non-empty. -/
def ocrSections (pages : List Page) : List String :=
  pages.enum.filterMap (fun pp =>
    if pp.2.ocrText.trim = "" then none else some (pageSection pp.1 pp.2.ocrText))

/-- The _do_extract_text_ocr body (lines 695 to 732): calls _initialize_ocr
    twice (lines 703 and 706), raises RuntimeError when the second call
    fails, and otherwise OCRs each page and saves like the plain text path.
    The per-page log posts are elided; the progress bar is indeterminate on
    this path, so no fractions are posted. Returns the result (Except.error
    models the raised RuntimeError) and the updated reader state. -/
def doExtractTextOcr (easyocrAvailable : Bool) (ocrReader : Option Unit)
    (baseName : String) (doc : PdfDoc) : Except String ExtractOut × Option Unit :=
  let st1 := (initializeOcr easyocrAvailable ocrReader).2
  let call2 := initializeOcr easyocrAvailable st1
  if call2.1 = false then (Except.error ocrInitFailureMsg, call2.2)
  else
    let st := saveExtractedText baseName (ocrSections doc.pages)
    (Except.ok { msg := st.1, writes := st.2, progress := [] }, call2.2)

/-! ## Orchestrator, task runner and the main-loop callback model -/

/-- Python truthiness of kwargs.get. Line 790 tests "if not password": both
    a missing password (None) and the empty string are falsy. -/
def pwFalsy : Option String → Bool
  | none => true
  | some s => s == ""

/-- Outcome of one _perform_extraction call: returned None after scheduling
    the password prompt, returned the extractor message, or let a
    RuntimeError propagate to _execute_task. -/
inductive PerformResult where
  | prompted
  | done (msg : String)
  | raised (msg : String)
deriving DecidableEq

/-- A callback posted with after(0, ...) to the Tk main loop, in FIFO order:
    a progress-bar update, the password prompt hand-off (line 793), or the
    re-enabling of the extraction buttons (line 538). -/
inductive Cb where
  | setProgress (v : ℚ)
  | promptPassword
  | enableButtons
deriving DecidableEq

/-- What one _perform_extraction call produces: its result, the files the
    invoked extractor wrote, and the after(0, ...) callbacks posted. -/
structure PerformOut where
  result : PerformResult
  writes : List FileWrite
  cbs : List Cb
deriving DecidableEq

/-- Message of the RuntimeError raised at line 798. -/
def authFailMsg : String := "Incorrect password or unable to decrypt PDF."

/-- Invocation of the selected extraction_logic on the open document
    (line 802). The logic returns Except so that an extractor-raised
    RuntimeError (the OCR path) propagates. -/
def runLogic (extractionLogic : PdfDoc → Except String ExtractOut) (doc : PdfDoc) :
    PerformOut :=
  match extractionLogic doc with
  | Except.ok o =>
      { result := PerformResult.done o.msg
        writes := o.writes
        cbs := o.progress.map Cb.setProgress }
  | Except.error e =>
      { result := PerformResult.raised e, writes := [], cbs := [] }

/-- The _perform_extraction body (lines 776 to 806), generic in the
    extraction_logic exactly as the source is. On an encrypted document with
    a falsy password it posts the prompt callback and returns None; with a
    password that fails doc.authenticate it raises the RuntimeError of line
    798; otherwise it runs the extractor. -/
def performExtraction (extractionLogic : PdfDoc → Except String ExtractOut)
    (doc : PdfDoc) (password : Option String) : PerformOut :=
  if doc.isEncrypted && doc.needsPass then
    if pwFalsy password then
      { result := PerformResult.prompted, writes := [], cbs := [Cb.promptPassword] }
    else if doc.auth (password.getD "") = false then
      { result := PerformResult.raised authFailMsg, writes := [], cbs := [] }
    else runLogic extractionLogic doc
  else runLogic extractionLogic doc

/-- What _execute_task does on the interactive surface once its body ends:
    nothing (the None result of the password hand-off), the success dialog,
    or the error dialog of lines 508 to 515. -/
inductive TaskOutcome where
  | silent
  | successDialog (msg : String)
  | errorDialog (msg : String)
deriving DecidableEq

/-- One whole task execution: its surfaced outcome, the files written, and
    the after(0, ...) callbacks posted, in order. -/
structure TaskRun where
  outcome : TaskOutcome
  writes : List FileWrite
  cbs : List Cb
deriving DecidableEq

/-- The _execute_task body (lines 481 to 524) around _perform_extraction:
    first posts the progress reset of line 489, then runs the task function;
    a message is logged and offered in the success dialog, None is silent,
    and a caught RuntimeError e is surfaced as the error dialog with text
    given by the f-string of line 509 (taskNameLower stands for the
    Python task_name.lower()). The log lines and the delayed
    after(1000, ...) progress reset are elided. -/
def executeTask (extractionLogic : PdfDoc → Except String ExtractOut)
    (taskNameLower : String) (doc : PdfDoc) (password : Option String) : TaskRun :=
  let p := performExtraction extractionLogic doc password
  { outcome :=
      match p.result with
      | PerformResult.prompted => TaskOutcome.silent
      | PerformResult.done m => TaskOutcome.successDialog m
      | PerformResult.raised e =>
          TaskOutcome.errorDialog ("An error occurred during " ++ taskNameLower ++ ": " ++ e)
    writes := p.writes
    cbs := Cb.setProgress 0 :: p.cbs }

/-- The _run_extraction_in_thread wrapper (lines 526 to 540): the buttons
    are disabled, the worker runs _execute_task, and the worker posts
    enableButtons as its final after(0, ...) callback, unconditionally. The
    callback list is the FIFO queue the worker leaves for the main loop. -/
def spawnTask (extractionLogic : PdfDoc → Except String ExtractOut)
    (taskNameLower : String) (doc : PdfDoc) (password : Option String) : TaskRun :=
  let t := executeTask extractionLogic taskNameLower doc password
  { t with cbs := t.cbs ++ [Cb.enableButtons] }

/-- The interactive state the claims observe: whether the task-initiating
    buttons are enabled and whether the password prompt is awaiting input. -/
structure UiState where
  buttonsEnabled : Bool
  awaitingPassword : Bool
deriving DecidableEq

/-- Effect of one main-loop callback on the UI state. Dispatching
    promptPassword opens the modal dialog of _prompt_for_password_and_retry
    (line 559) and blocks in wait_window, whose nested event loop keeps
    dispatching the queued callbacks while the dialog is awaiting input, so
    callbacks queued behind the prompt still run in the awaiting state. -/
def stepCb (s : UiState) : Cb → UiState
  | Cb.promptPassword => { s with awaitingPassword := true }
  | Cb.enableButtons => { s with buttonsEnabled := true }
  | Cb.setProgress _ => s

/-- UI state once the main loop has dispatched every callback the worker
    posted, starting from the disabled state set at line 535. When one of
    the callbacks opened the password prompt, the prompt is still awaiting
    input at this point and this is the state the user sees. -/
def uiAfterSpawn (extractionLogic : PdfDoc → Except String ExtractOut)
    (taskNameLower : String) (doc : PdfDoc) (password : Option String) : UiState :=
  (spawnTask extractionLogic taskNameLower doc password).cbs.foldl stepCb
    { buttonsEnabled := false, awaitingPassword := false }

/-- Resolution of the password prompt (lines 554 to 567): cancel re-enables
    the buttons and ends the flow with no new request; a non-cancelled value
    (any string, the empty one included) restarts the task through
    _run_extraction_in_thread with that password. -/
def resolvePrompt (extractionLogic : PdfDoc → Except String ExtractOut)
    (taskNameLower : String) (doc : PdfDoc) (entry : Option String) : UiState :=
  match entry with
  | none => { buttonsEnabled := true, awaitingPassword := false }
  | some pw => uiAfterSpawn extractionLogic taskNameLower doc (some pw)

/-! ## Sample inputs used by witnesses and counterexamples -/

/-- A page with one embedded image and some text. -/
def samplePage : Page :=
  { images := [{ ext := "png", data := [1, 2, 3] }]
    text := "hello"
    html := "<p>hello</p>"
    ocrText := "hello" }

/-- A page with no images and no text. -/
def blankPage : Page := { images := [], text := "", html := "", ocrText := "" }

/-- An encrypted document whose password is the string "secret". -/
def encSampleDoc : PdfDoc :=
  { isEncrypted := true, needsPass := true
    auth := fun s => s == "secret", pages := [samplePage] }

/-- An encrypted document that accepts every authentication attempt. -/
def encAnyDoc : PdfDoc :=
  { isEncrypted := true, needsPass := true
    auth := fun _ => true, pages := [samplePage] }

/-- A plain document with seven pages. -/
def docSeven : PdfDoc :=
  { isEncrypted := false, needsPass := false
    auth := fun _ => false, pages := List.replicate 7 blankPage }

/-- A plain document with two pages carrying three images in total. -/
def sampleImgDoc : PdfDoc :=
  { isEncrypted := false, needsPass := false
    auth := fun _ => false
    pages :=
      [{ images := [{ ext := "png", data := [1] }, { ext := "jpeg", data := [2] }]
         text := "", html := "", ocrText := "" },
       { images := [{ ext := "png", data := [3] }]
         text := "x", html := "y", ocrText := "z" }] }

/-- The extraction_logic of the image task (line 579). -/
def imagesLogic (doc : PdfDoc) : Except String ExtractOut :=
  Except.ok (doExtractImages doc)

/-! ## Progress lemmas (claim C3) -/

theorem progressPages_pairwise (n : Nat) : (progressPages n).Pairwise (· < ·) :=
  (List.pairwise_lt_range n).filter _

theorem progressSeq_sorted (n : Nat) : (progressSeq n).Sorted (· ≤ ·) := by
  have hmono : ∀ a b : Nat, a < b → ((a : ℚ) + 1) / (n : ℚ) ≤ ((b : ℚ) + 1) / (n : ℚ) := by
    intro a b hab
    rcases Nat.eq_zero_or_pos n with h | h
    · simp [h]
    · have hn : (0 : ℚ) < (n : ℚ) := by exact_mod_cast h
      have hle : ((a : ℚ) + 1) ≤ ((b : ℚ) + 1) := by
        have : (a : ℚ) ≤ (b : ℚ) := by exact_mod_cast hab.le
        linarith
      gcongr
  exact List.Pairwise.map (fun (p : Nat) => ((p : ℚ) + 1) / (n : ℚ))
    (fun a b hab => hmono a b hab) (progressPages_pairwise n)

theorem progressPages_succ (m : Nat) :
    progressPages (m + 1) = ((List.range m).filter (fun p => p % 5 == 0 || p == m)) ++ [m] := by
  unfold progressPages
  rw [List.range_succ, List.filter_append]
  simp

theorem progressSeq_getLast (n : Nat) (hn : 0 < n) :
    (progressSeq n).getLast? = some 1 := by
  obtain ⟨m, rfl⟩ : ∃ m, n = m + 1 := ⟨n - 1, by omega⟩
  simp only [progressSeq]
  rw [progressPages_succ, List.map_append]
  simp only [List.map_cons, List.map_nil]
  rw [List.getLast?_concat]
  congr 1
  rw [div_eq_one_iff_eq]
  · push_cast
    ring
  · exact_mod_cast Nat.succ_ne_zero m

theorem progressPages_mem (n q : Nat) (hq : q < n) (h : q % 5 = 0 ∨ q = n - 1) :
    q ∈ progressPages n := by
  unfold progressPages
  rw [List.mem_filter, List.mem_range]
  refine ⟨hq, ?_⟩
  rcases h with h | h <;> simp [h]

theorem progress_cadence (n : Nat) (hn : 0 < n) (p : Nat) (hp : p < n) :
    ∃ q ∈ progressPages n, p ≤ q ∧ q ≤ p + 4 := by
  by_cases h0 : p % 5 = 0
  · exact ⟨p, progressPages_mem n p hp (Or.inl h0), le_refl p, by omega⟩
  · by_cases hlt : p - p % 5 + 5 < n
    · refine ⟨p - p % 5 + 5, progressPages_mem n _ hlt (Or.inl (by omega)), by omega, by omega⟩
    · refine ⟨n - 1, progressPages_mem n _ (by omega) (Or.inr rfl), by omega, by omega⟩

theorem progressSeq_one : progressSeq 1 = [1] := by
  have h : progressPages 1 = [0] := by decide
  rw [progressSeq, h]
  norm_num

/-- C3: for every document with at least one page, the fractional progress
    sequence posted by a non-OCR extractor (the text and HTML extractors
    post the same sequence as the image extractor) is non-decreasing, ends
    exactly at 1.0, is posted on a page within every window of 5 consecutive
    pages and on the final page, and in the 1-page case is exactly the
    singleton 1.0. -/
theorem nonocr_progress_spec (b : String) (doc : PdfDoc) (hn : 0 < doc.pages.length) :
    (doExtractImages doc).progress.Sorted (· ≤ ·) ∧
    (doExtractText b doc).progress = (doExtractImages doc).progress ∧
    (doExtractHtml b doc).progress = (doExtractImages doc).progress ∧
    (doExtractImages doc).progress.getLast? = some 1 ∧
    (∀ p, p < doc.pages.length →
      ∃ q ∈ progressPages doc.pages.length, p ≤ q ∧ q ≤ p + 4) ∧
    (doc.pages.length - 1) ∈ progressPages doc.pages.length ∧
    (doc.pages.length = 1 → (doExtractImages doc).progress = [1]) := by
  refine ⟨progressSeq_sorted _, rfl, rfl, progressSeq_getLast _ hn, ?_, ?_, ?_⟩
  · exact fun p hp => progress_cadence _ hn p hp
  · exact progressPages_mem _ _ (by omega) (Or.inr rfl)
  · intro h1
    show progressSeq doc.pages.length = [1]
    rw [h1, progressSeq_one]

/-- Witness for C3 at a concrete 7-page document. -/
theorem nonocr_progress_spec_witness :
    (doExtractImages docSeven).progress.Sorted (· ≤ ·) ∧
    (doExtractText "doc" docSeven).progress = (doExtractImages docSeven).progress ∧
    (doExtractHtml "doc" docSeven).progress = (doExtractImages docSeven).progress ∧
    (doExtractImages docSeven).progress.getLast? = some 1 ∧
    (∀ p, p < docSeven.pages.length →
      ∃ q ∈ progressPages docSeven.pages.length, p ≤ q ∧ q ≤ p + 4) ∧
    (docSeven.pages.length - 1) ∈ progressPages docSeven.pages.length ∧
    (docSeven.pages.length = 1 → (doExtractImages docSeven).progress = [1]) :=
  nonocr_progress_spec "doc" docSeven (by decide)

/-! ## Orchestrator claims C1, C2, C4, C5, C8 -/

/-- Counterexample for C1: this request carries a supplied password, the
    empty string, against a document that would accept any authentication
    attempt; yet the orchestrator never authenticates and signals
    AuthenticationRequired (posts the prompt callback and returns None),
    because line 790 tests Python truthiness, under which the empty string
    counts as no password. -/
theorem empty_password_reprompts :
    performExtraction imagesLogic encAnyDoc (some "") =
      { result := PerformResult.prompted, writes := []
        cbs := [Cb.promptPassword] } := rfl

/-- C1 (amended): the orchestrator attempts authentication exactly for
    requests carrying a non-empty password; a request whose password is
    absent or the empty string (Python-falsy) signals AuthenticationRequired
    and prompts again. -/
theorem auth_attempted_iff_nonempty_password
    (extractionLogic : PdfDoc → Except String ExtractOut) (doc : PdfDoc)
    (pw : Option String) (henc : doc.isEncrypted = true) (hnp : doc.needsPass = true) :
    (pwFalsy pw = true →
      performExtraction extractionLogic doc pw =
        { result := PerformResult.prompted, writes := [], cbs := [Cb.promptPassword] }) ∧
    (∀ s, pw = some s → s ≠ "" →
      performExtraction extractionLogic doc pw =
        (if doc.auth s then runLogic extractionLogic doc
         else { result := PerformResult.raised authFailMsg, writes := [], cbs := [] })) := by
  constructor
  · intro h
    simp [performExtraction, henc, hnp, h]
  · intro s hpw hs
    subst hpw
    have hf : pwFalsy (some s) = false := by simp [pwFalsy, hs]
    cases hauth : doc.auth s <;>
      simp [performExtraction, henc, hnp, hf, hauth]

/-- Witness for the amended C1: the sample encrypted document with its
    correct non-empty password is authenticated and extraction runs. -/
theorem auth_attempted_iff_nonempty_password_witness :
    performExtraction imagesLogic encSampleDoc (some "secret") =
      runLogic imagesLogic encSampleDoc := by
  have h := (auth_attempted_iff_nonempty_password imagesLogic encSampleDoc
    (some "secret") rfl rfl).2 "secret" rfl (by decide)
  simpa [encSampleDoc] using h

/-- C2 evaluated at its failing input (code bug): after an encrypted
    document is opened with no password, the worker exits having posted the
    prompt callback and then, unconditionally, the enableButtons callback
    (line 538); once the main loop dispatches both, the password prompt is
    awaiting input while the task-initiating buttons are already re-enabled,
    contradicting the claimed invariant (the cancel branch of line 567
    re-enables buttons that are no longer disabled). The second conjunct
    records the terminal-cancel outcome, which does leave the buttons
    enabled as claimed. -/
theorem buttons_enabled_while_awaiting_password :
    uiAfterSpawn imagesLogic "image extraction" encSampleDoc none =
      { buttonsEnabled := true, awaitingPassword := true } ∧
    (resolvePrompt imagesLogic "image extraction" encSampleDoc none).buttonsEnabled = true :=
  ⟨rfl, rfl⟩

/-- C4: on an encrypted document with no supplied password, the run signals
    AuthenticationRequired (posts the prompt callback, returns None), writes
    no file, surfaces no dialog (the outcome is silent, not an error), and
    the orchestrator takes no further action: the result is independent of
    the extraction logic, which is universally quantified here. -/
theorem encrypted_no_password_prompts
    (extractionLogic : PdfDoc → Except String ExtractOut) (taskNameLower : String)
    (doc : PdfDoc) (henc : doc.isEncrypted = true) (hnp : doc.needsPass = true) :
    performExtraction extractionLogic doc none =
      { result := PerformResult.prompted, writes := [], cbs := [Cb.promptPassword] } ∧
    executeTask extractionLogic taskNameLower doc none =
      { outcome := TaskOutcome.silent, writes := []
        cbs := [Cb.setProgress 0, Cb.promptPassword] } := by
  have h1 : performExtraction extractionLogic doc none =
      { result := PerformResult.prompted, writes := [], cbs := [Cb.promptPassword] } := by
    simp [performExtraction, henc, hnp, pwFalsy]
  exact ⟨h1, by simp [executeTask, h1]⟩

/-- Witness for C4 at the sample encrypted document. -/
theorem encrypted_no_password_prompts_witness :
    performExtraction imagesLogic encSampleDoc none =
      { result := PerformResult.prompted, writes := [], cbs := [Cb.promptPassword] } ∧
    executeTask imagesLogic "image extraction" encSampleDoc none =
      { outcome := TaskOutcome.silent, writes := []
        cbs := [Cb.setProgress 0, Cb.promptPassword] } :=
  encrypted_no_password_prompts imagesLogic "image extraction" encSampleDoc rfl rfl

/-- Counterexample for C5: against the sample document whose password is
    "secret", the empty string is a wrong password, yet the run does not
    fail with AuthenticationFailed: it signals AuthenticationRequired
    instead, because the empty string is Python-falsy at line 790. -/
theorem wrong_empty_password_not_failed :
    (performExtraction imagesLogic encSampleDoc (some "")).result = PerformResult.prompted ∧
    (performExtraction imagesLogic encSampleDoc (some "")).result ≠
      PerformResult.raised authFailMsg :=
  ⟨rfl, by decide⟩

/-- C5 (amended): with a non-empty wrong password the task fails with the
    AuthenticationFailed error surfaced in the error dialog, writes no file,
    and posts no prompt callback (no automatic retry or re-prompt); a
    subsequent attempt with a correct non-empty password authenticates and
    runs the extractor. -/
theorem wrong_password_fails
    (extractionLogic : PdfDoc → Except String ExtractOut) (taskNameLower : String)
    (doc : PdfDoc) (s t : String)
    (henc : doc.isEncrypted = true) (hnp : doc.needsPass = true)
    (hs : s ≠ "") (hwrong : doc.auth s = false) :
    executeTask extractionLogic taskNameLower doc (some s) =
      { outcome := TaskOutcome.errorDialog
          ("An error occurred during " ++ taskNameLower ++ ": " ++ authFailMsg)
        writes := [], cbs := [Cb.setProgress 0] } ∧
    Cb.promptPassword ∉ (executeTask extractionLogic taskNameLower doc (some s)).cbs ∧
    (t ≠ "" → doc.auth t = true →
      performExtraction extractionLogic doc (some t) = runLogic extractionLogic doc) := by
  have hf : pwFalsy (some s) = false := by simp [pwFalsy, hs]
  have h1 : performExtraction extractionLogic doc (some s) =
      { result := PerformResult.raised authFailMsg, writes := [], cbs := [] } := by
    simp [performExtraction, henc, hnp, hf, hwrong]
  have h2 : executeTask extractionLogic taskNameLower doc (some s) =
      { outcome := TaskOutcome.errorDialog
          ("An error occurred during " ++ taskNameLower ++ ": " ++ authFailMsg)
        writes := [], cbs := [Cb.setProgress 0] } := by
    simp [executeTask, h1]
  refine ⟨h2, ?_, ?_⟩
  · rw [h2]
    simp
  · intro ht hat
    have hft : pwFalsy (some t) = false := by simp [pwFalsy, ht]
    simp [performExtraction, henc, hnp, hft, hat]

/-- Witness for the amended C5: wrong password "wrong" fails and is not
    re-prompted; the correct password "secret" then succeeds. -/
theorem wrong_password_fails_witness :
    executeTask imagesLogic "image extraction" encSampleDoc (some "wrong") =
      { outcome := TaskOutcome.errorDialog
          ("An error occurred during " ++ "image extraction" ++ ": " ++ authFailMsg)
        writes := [], cbs := [Cb.setProgress 0] } ∧
    Cb.promptPassword ∉ (executeTask imagesLogic "image extraction" encSampleDoc (some "wrong")).cbs ∧
    performExtraction imagesLogic encSampleDoc (some "secret") =
      runLogic imagesLogic encSampleDoc := by
  have h := wrong_password_fails imagesLogic "image extraction" encSampleDoc
    "wrong" "secret" rfl rfl (by decide) (by decide)
  exact ⟨h.1, h.2.1, h.2.2 (by decide) (by decide)⟩

/-- C8: on a non-encrypted document, a request carrying any password behaves
    exactly like one carrying none: same orchestrator output (result, files,
    callbacks) and same task run (dialogs included); the password is ignored
    and causes no error. -/
theorem password_ignored_unencrypted
    (extractionLogic : PdfDoc → Except String ExtractOut) (taskNameLower : String)
    (doc : PdfDoc) (pw : Option String) (henc : doc.isEncrypted = false) :
    performExtraction extractionLogic doc pw = performExtraction extractionLogic doc none ∧
    executeTask extractionLogic taskNameLower doc pw =
      executeTask extractionLogic taskNameLower doc none := by
  have h : ∀ q, performExtraction extractionLogic doc q = runLogic extractionLogic doc := by
    intro q
    simp [performExtraction, henc]
  exact ⟨by rw [h, h], by simp [executeTask, h]⟩

/-- Witness for C8 at a concrete unencrypted document and password. -/
theorem password_ignored_unencrypted_witness :
    performExtraction imagesLogic docSeven (some "pw") =
      performExtraction imagesLogic docSeven none ∧
    executeTask imagesLogic "image extraction" docSeven (some "pw") =
      executeTask imagesLogic "image extraction" docSeven none :=
  password_ignored_unencrypted imagesLogic "image extraction" docSeven (some "pw") rfl

/-! ## OCR initialization (claim C9) -/

theorem ocrConstructions_some (r : Unit) (calls : List Bool) :
    ocrConstructions (some r) calls = 0 := by
  induction calls with
  | nil => rfl
  | cons a rest ih => simp [ocrConstructions, ocrConstructs, initializeOcr, ih]

theorem ocrConstructions_le_one (st : Option Unit) (calls : List Bool) :
    ocrConstructions st calls ≤ 1 := by
  induction calls generalizing st with
  | nil => simp [ocrConstructions]
  | cons a rest ih =>
    cases st with
    | some r => simp [ocrConstructions_some]
    | none =>
      cases a with
      | false => simpa [ocrConstructions, ocrConstructs, initializeOcr] using ih none
      | true => simp [ocrConstructions, ocrConstructs, initializeOcr, ocrConstructions_some]

/-- C9: across any sequence of _initialize_ocr calls in one session the
    easyocr.Reader is constructed at most once (and exactly once over a
    successful OCR attempt, which calls the initializer twice); when the
    module is missing, the OCR task raises the distinct initialization
    error, which _execute_task surfaces as an error dialog rather than a
    crash, and leaves the reader unset so that a later attempt with the
    module available retries initialization and succeeds. -/
theorem ocr_lazy_init_spec (b : String) (doc : PdfDoc) (st : Option Unit)
    (calls : List Bool) :
    ocrConstructions st calls ≤ 1 ∧
    ocrConstructions none [true, true] = 1 ∧
    doExtractTextOcr false none b doc = (Except.error ocrInitFailureMsg, none) ∧
    (∀ (taskNameLower : String) (doc2 : PdfDoc), doc2.isEncrypted = false →
      (executeTask (fun d => (doExtractTextOcr false none b d).1)
          taskNameLower doc2 none).outcome =
        TaskOutcome.errorDialog
          ("An error occurred during " ++ taskNameLower ++ ": " ++ ocrInitFailureMsg)) ∧
    (doExtractTextOcr true none b doc).2 = some () ∧
    (∃ o, (doExtractTextOcr true none b doc).1 = Except.ok o) := by
  refine ⟨ocrConstructions_le_one st calls, rfl, rfl, ?_, rfl, ⟨_, rfl⟩⟩
  intro taskNameLower doc2 h2
  have hrl : runLogic (fun d => (doExtractTextOcr false none b d).1) doc2 =
      { result := PerformResult.raised ocrInitFailureMsg, writes := [], cbs := [] } := rfl
  have hp : performExtraction (fun d => (doExtractTextOcr false none b d).1) doc2 none =
      runLogic (fun d => (doExtractTextOcr false none b d).1) doc2 := by
    simp [performExtraction, h2]
  simp [executeTask, hp, hrl]

/-- Witness for C9 at concrete session states and documents. -/
theorem ocr_lazy_init_spec_witness :
    ocrConstructions none [false] ≤ 1 ∧
    ocrConstructions none [true, true] = 1 ∧
    doExtractTextOcr false none "doc" docSeven = (Except.error ocrInitFailureMsg, none) ∧
    (executeTask (fun d => (doExtractTextOcr false none "doc" d).1)
        "text extraction" docSeven none).outcome =
      TaskOutcome.errorDialog
        ("An error occurred during " ++ "text extraction" ++ ": " ++ ocrInitFailureMsg) ∧
    (doExtractTextOcr true none "doc" docSeven).2 = some () ∧
    (∃ o, (doExtractTextOcr true none "doc" docSeven).1 = Except.ok o) := by
  have h := ocr_lazy_init_spec "doc" docSeven none [false]
  exact ⟨h.1, h.2.1, h.2.2.1, h.2.2.2.1 "text extraction" docSeven rfl, h.2.2.2.2⟩

/-! ## Text extractor (claim C7) -/

theorem textSections_eq (l : List (Nat × Page)) :
    l.filterMap (fun pp =>
      if pp.2.text = "" then none else some (pageSection pp.1 pp.2.text)) =
    (l.filter (fun pp => pp.2.text != "")).map (fun pp => pageSection pp.1 pp.2.text) := by
  induction l with
  | nil => rfl
  | cons a as ih =>
    by_cases h : a.2.text = "" <;> simp [h, ih]

theorem textSections_nil (pages : List Page) (h : ∀ pg ∈ pages, pg.text = "") :
    textSections pages = [] := by
  unfold textSections
  apply List.filterMap_eq_nil_iff.mpr
  intro pp hpp
  have hmem : pp.2 ∈ pages := by
    have hm := List.mem_map_of_mem Prod.snd hpp
    rwa [List.enum_map_snd] at hm
  simp [h pp.2 hmem]

theorem textSections_ne_nil (pages : List Page) (pg : Page)
    (hpg : pg ∈ pages) (ht : pg.text ≠ "") : textSections pages ≠ [] := by
  obtain ⟨pp, hppmem, hppeq⟩ : ∃ pp ∈ pages.enum, pp.2 = pg := by
    have hm : pg ∈ pages.enum.map Prod.snd := by
      rw [List.enum_map_snd]
      exact hpg
    obtain ⟨pp, h1, h2⟩ := List.mem_map.mp hm
    exact ⟨pp, h1, h2⟩
  apply List.ne_nil_of_mem (a := pageSection pp.1 pp.2.text)
  unfold textSections
  apply List.mem_filterMap.mpr
  refine ⟨pp, hppmem, ?_⟩
  rw [if_neg]
  rw [hppeq]
  exact ht

/-- C7: the text extractor writes one file named base_extracted_text.txt
    holding the concatenation of one header-plus-body section per page with
    non-empty text (empty pages contribute no section); a document with no
    text at all yields the distinct no-text-found message, which is not
    routed through any error path, and writes no file. -/
theorem text_extractor_spec (b : String) (doc : PdfDoc) :
    ((∀ pg ∈ doc.pages, pg.text = "") →
      (doExtractText b doc).msg =
        "Text extraction finished, but no text was found in the PDF." ∧
      (doExtractText b doc).writes = []) ∧
    ((∃ pg ∈ doc.pages, pg.text ≠ "") →
      (doExtractText b doc).writes =
        [{ name := b ++ "_extracted_text.txt"
           content := FileData.text (String.join (textSections doc.pages)) }] ∧
      (doExtractText b doc).msg =
        "Text extraction complete! Saved to " ++ (b ++ "_extracted_text.txt") ++ ".") ∧
    textSections doc.pages =
      (doc.pages.enum.filter (fun pp => pp.2.text != "")).map
        (fun pp => pageSection pp.1 pp.2.text) := by
  refine ⟨?_, ?_, textSections_eq doc.pages.enum⟩
  · intro h
    have hnil := textSections_nil doc.pages h
    constructor <;> simp [doExtractText, saveExtractedText, hnil]
  · rintro ⟨pg, hpg, ht⟩
    have hne := textSections_ne_nil doc.pages pg hpg ht
    have hie : (textSections doc.pages).isEmpty = false := by
      cases hl : textSections doc.pages with
      | nil => exact absurd hl hne
      | cons x xs => rfl
    constructor <;> simp [doExtractText, saveExtractedText, hie]

/-- Witness for C7: the all-blank 7-page document yields the no-text outcome
    with no file; the sample document with text on its second page yields
    the single output file and the success message. -/
theorem text_extractor_spec_witness :
    ((doExtractText "doc" docSeven).msg =
        "Text extraction finished, but no text was found in the PDF." ∧
      (doExtractText "doc" docSeven).writes = []) ∧
    ((doExtractText "doc" sampleImgDoc).writes =
        [{ name := "doc" ++ "_extracted_text.txt"
           content := FileData.text (String.join (textSections sampleImgDoc.pages)) }] ∧
      (doExtractText "doc" sampleImgDoc).msg =
        "Text extraction complete! Saved to " ++ ("doc" ++ "_extracted_text.txt") ++ ".") := by
  refine ⟨(text_extractor_spec "doc" docSeven).1 ?_,
    (text_extractor_spec "doc" sampleImgDoc).2.1 ?_⟩
  · decide
  · decide

/-! ## HTML extractor on a zero-page document (claim C10) -/

/-- C10: on a document with zero pages the HTML extractor still writes
    base_extracted_content.html containing only the empty document shell
    (the opening html head body line, a newline, and the closing line, with
    no page sections) and returns the success message, while the text
    extractor on the same document writes no file and reports the no-text
    outcome. -/
theorem html_zero_pages_writes_shell (b : String) (e np : Bool) (a : String → Bool) :
    doExtractHtml b { isEncrypted := e, needsPass := np, auth := a, pages := [] } =
      { msg := "HTML extraction complete! Saved to " ++ (b ++ "_extracted_content.html") ++ "."
        writes := [{ name := b ++ "_extracted_content.html"
                     content := FileData.text
                       "<html><head><title>Extracted Content</title></head><body>\n</body></html>" }]
        progress := [] } ∧
    (doExtractText b { isEncrypted := e, needsPass := np, auth := a, pages := [] }).writes = [] ∧
    (doExtractText b { isEncrypted := e, needsPass := np, auth := a, pages := [] }).msg =
      "Text extraction finished, but no text was found in the PDF." :=
  ⟨rfl, rfl, rfl⟩

/-! ## Image filenames (claim C6)

    The filename page(p)_img(i).(ext) determines p and i: the decimal digit
    runs are delimited by the non-digit separators of the fixed skeleton, so
    two distinct (page, image-index) pairs always yield distinct names. -/

theorem digit_split {sep : Char} (hsep : ¬ isDig sep) :
    ∀ (d1 d2 r1 r2 : List Char), (∀ c ∈ d1, isDig c) → (∀ c ∈ d2, isDig c) →
      d1 ++ sep :: r1 = d2 ++ sep :: r2 → d1 = d2 ∧ r1 = r2 := by
  intro d1
  induction d1 with
  | nil =>
    intro d2 r1 r2 h1 h2 he
    cases d2 with
    | nil => simpa using he
    | cons b bs =>
      exfalso
      simp only [List.nil_append, List.cons_append, List.cons.injEq] at he
      apply hsep
      rw [he.1]
      exact h2 b (by simp)
  | cons a as ih =>
    intro d2 r1 r2 h1 h2 he
    cases d2 with
    | nil =>
      exfalso
      simp only [List.nil_append, List.cons_append, List.cons.injEq] at he
      apply hsep
      rw [← he.1]
      exact h1 a (by simp)
    | cons b bs =>
      simp only [List.cons_append, List.cons.injEq] at he
      obtain ⟨hab, hrest⟩ := he
      obtain ⟨hd, hr⟩ := ih bs r1 r2 (fun c hc => h1 c (by simp [hc]))
        (fun c hc => h2 c (by simp [hc])) hrest
      exact ⟨by rw [hab, hd], hr⟩

theorem imageFilename_data (p i : Nat) (e : String) :
    (imageFilename p i e).data =
      'p' :: 'a' :: 'g' :: 'e' ::
        ((natStr p).data ++ '_' :: 'i' :: 'm' :: 'g' ::
          ((natStr i).data ++ '.' :: e.data)) := by
  simp [imageFilename, String.data_append, List.append_assoc]

theorem imageFilename_inj {p1 i1 p2 i2 : Nat} {e1 e2 : String}
    (h : imageFilename p1 i1 e1 = imageFilename p2 i2 e2) :
    p1 = p2 ∧ i1 = i2 ∧ e1 = e2 := by
  have hd := congrArg String.data h
  rw [imageFilename_data, imageFilename_data] at hd
  simp only [List.cons.injEq, true_and] at hd
  have hu : ¬ isDig '_' := by decide
  have hdot : ¬ isDig '.' := by decide
  obtain ⟨hp, hrest⟩ := digit_split hu (natStr p1).data (natStr p2).data _ _
    (natStr_digits p1) (natStr_digits p2) hd
  simp only [List.cons.injEq, true_and] at hrest
  obtain ⟨hi, hext⟩ := digit_split hdot (natStr i1).data (natStr i2).data _ _
    (natStr_digits i1) (natStr_digits i2) hrest
  have hps : natStr p1 = natStr p2 := by
    cases hn1 : natStr p1
    cases hn2 : natStr p2
    rw [hn1, hn2] at hp
    simp only at hp
    rw [hp]
  have his : natStr i1 = natStr i2 := by
    cases hn1 : natStr i1
    cases hn2 : natStr i2
    rw [hn1, hn2] at hi
    simp only at hi
    rw [hi]
  have hes : e1 = e2 := by
    cases e1
    cases e2
    simp only at hext
    rw [hext]
  exact ⟨natStr_inj hps, natStr_inj his, hes⟩

theorem imageWrites_names (pages : List Page) :
    (imageWrites pages).map FileWrite.name =
      pages.enum.flatMap (fun pp =>
        pp.2.images.enum.map (fun ii => imageFilename (pp.1 + 1) (ii.1 + 1) ii.2.ext)) := by
  rw [imageWrites, List.map_flatMap]
  congr 1
  funext pp
  rw [List.map_map]
  rfl

theorem enum_fst_inj {α : Type} (l : List α) (x y : Nat × α)
    (hx : x ∈ l.enum) (hy : y ∈ l.enum) (hf : x.1 = y.1) : x = y := by
  have hnd : (l.enum.map Prod.fst).Nodup := by
    rw [List.enum_map_fst]
    exact List.nodup_range l.length
  exact List.inj_on_of_nodup_map hnd hx hy hf

theorem imageWrites_nodup (pages : List Page) :
    ((imageWrites pages).map FileWrite.name).Nodup := by
  rw [imageWrites_names]
  apply List.nodup_flatMap.mpr
  constructor
  · intro pp hpp
    apply List.Nodup.map_on
    · intro ii1 h1 ii2 h2 heq
      obtain ⟨-, hi, -⟩ := imageFilename_inj heq
      exact enum_fst_inj pp.2.images ii1 ii2 h1 h2 (by omega)
    · exact List.Nodup.of_map Prod.fst
        (by rw [List.enum_map_fst]; exact List.nodup_range pp.2.images.length)
  · have hpw : pages.enum.Pairwise (fun x y => x.1 < y.1) := by
      apply List.pairwise_map.mp
      rw [List.enum_map_fst]
      exact List.pairwise_lt_range pages.length
    apply hpw.imp
    intro x y hxy s hs1 hs2
    obtain ⟨ii1, -, he1⟩ := List.mem_map.mp hs1
    obtain ⟨ii2, -, he2⟩ := List.mem_map.mp hs2
    obtain ⟨hpeq, -, -⟩ := imageFilename_inj (he1.trans he2.symm)
    omega

theorem imageWrites_length (pages : List Page) :
    (imageWrites pages).length = (pages.map (fun pg => pg.images.length)).sum := by
  rw [imageWrites, List.length_flatMap]
  congr 1
  rw [show (fun pg => pg.images.length) = (fun pg : Page => pg.images.length) from rfl,
    ← List.enum_map_snd pages, List.map_map]
  simp [Function.comp]

theorem imageWrites_pattern (pages : List Page) :
    ∀ w ∈ imageWrites pages, ∃ p pg i im,
      pages[p]? = some pg ∧ pg.images[i]? = some im ∧
      w.name = imageFilename (p + 1) (i + 1) im.ext ∧
      w.content = FileData.bytes im.data := by
  intro w hw
  rw [imageWrites, List.mem_flatMap] at hw
  obtain ⟨pp, hpp, hin⟩ := hw
  obtain ⟨ii, hii, hwe⟩ := List.mem_map.mp hin
  refine ⟨pp.1, pp.2, ii.1, ii.2, ?_, ?_, ?_, ?_⟩
  · exact (List.mem_enum_iff_getElem?).mp hpp
  · exact (List.mem_enum_iff_getElem?).mp hii
  · rw [← hwe]
  · rw [← hwe]

/-- C6: every file written by the image extractor is named by the pattern
    page(p)_img(i).(ext) with p the 1-indexed page number and i the
    1-indexed image index of an embedded image of that page and holds that
    image; the number of files equals the total number of embedded images
    across all pages; the filename determines the (page, image-index) pair,
    so the written filenames are pairwise distinct. -/
theorem image_writes_pattern_unique (doc : PdfDoc) :
    (∀ w ∈ (doExtractImages doc).writes, ∃ p pg i im,
      doc.pages[p]? = some pg ∧ pg.images[i]? = some im ∧
      w.name = imageFilename (p + 1) (i + 1) im.ext ∧
      w.content = FileData.bytes im.data) ∧
    (doExtractImages doc).writes.length =
      (doc.pages.map (fun pg => pg.images.length)).sum ∧
    (∀ p1 i1 p2 i2 : Nat, ∀ e1 e2 : String,
      imageFilename p1 i1 e1 = imageFilename p2 i2 e2 → p1 = p2 ∧ i1 = i2 ∧ e1 = e2) ∧
    ((doExtractImages doc).writes.map FileWrite.name).Nodup :=
  ⟨imageWrites_pattern doc.pages, imageWrites_length doc.pages,
    fun _ _ _ _ _ _ h => imageFilename_inj h, imageWrites_nodup doc.pages⟩

/-- Witness for C6 at the two-page, three-image sample document. -/
theorem image_writes_pattern_unique_witness :
    ((doExtractImages sampleImgDoc).writes.map FileWrite.name).Nodup ∧
    (doExtractImages sampleImgDoc).writes.length = 3 ∧
    (doExtractImages sampleImgDoc).writes.map FileWrite.name =
      ["page1_img1.png", "page1_img2.jpeg", "page2_img1.png"] :=
  ⟨(image_writes_pattern_unique sampleImgDoc).2.2.2, rfl, rfl⟩

end PdfXtract
